import Mathlib

/-!
Verification of the tool-using agent executor specified for the
Azure-Cognitive-Search-Azure-OpenAI-Accelerator notebooks, together with the
two concrete notebook algorithms (batched CSV-to-SQL insertion and CREATE
TABLE generation) and the custom Bing search tool.

The agent loop itself (LangChain's AgentExecutor) is not part of the
repository sources: the notebooks only construct it and consume its streams.
Its state machine is therefore modelled from the spec (sections 3 to 7),
while the stream-consumption loop, the Bing tool, and the SQL-loading cells
are embedded directly from the notebook code.
-/

namespace AgentSpec

/-- Modelled from the spec: an Action is a proposed tool invocation, carrying a
tool name and structured input arguments (spec section 3); the LangChain agent
internals that produce Actions are absent from the repository sources. -/
structure Action where
  tool : String
  toolInput : String
deriving DecidableEq

/-- Modelled from the spec: a Step pairs one Action with its Observation
(spec section 3); an Observation is a tool result, text or error description. -/
structure Step where
  action : Action
  observation : String
deriving DecidableEq

/-- Modelled from the spec: a Tool is a named callable whose execution returns
either a success payload or a failure signal (spec section 4.1); a raised
tool error is an Except.error carrying the error message. -/
structure ToolDef where
  name : String
  run : String → Except String String

/-- Modelled from the spec: the Language-Model Client, given the Step history so
far, produces one or more Actions, a terminal answer, or a malformed response
that parses to neither (a protocol error, spec section 4.2 and 7). -/
inductive ModelOut where
  | actions : List Action → ModelOut
  | finish : String → ModelOut
  | malformed : ModelOut

/-- Modelled from the spec: terminal failure kinds of the Agent Loop, kept
distinguishable so callers can tell resource exhaustion from protocol errors
(spec sections 4.3 and 7). -/
inductive Failure where
  | iterationLimit : Failure
  | protocolError : Failure
deriving DecidableEq

/-- Modelled from the spec: the terminal result of an AgentRun, either a final
answer or a distinguishable terminal error (spec section 3). -/
inductive Outcome where
  | done : String → Outcome
  | failed : Failure → Outcome
deriving DecidableEq

/-- Modelled from the spec: an AgentRun owns the full ordered sequence of Steps
plus the eventual final answer or terminal error (spec section 3). -/
structure AgentRun where
  steps : List Step
  outcome : Outcome

/-- Modelled from the spec: the Tool Registry resolves an Action's tool name to
exactly one Tool or signals unknown tool (spec section 4.1). -/
def resolveTool (reg : List ToolDef) (name : String) : Option ToolDef :=
  reg.find? (fun t => t.name == name)

/-- Modelled from the spec: executing one Action always yields an Observation;
a tool-level error or an unknown tool name becomes a recoverable error
Observation, never an exception that unwinds the loop (spec section 7). -/
def execAction (reg : List ToolDef) (a : Action) : String :=
  match resolveTool reg a.tool with
  | none => "Error: unknown tool " ++ a.tool
  | some t =>
    match t.run a.toolInput with
    | Except.ok r => r
    | Except.error e => "Error: " ++ e

/-- Modelled from the spec: the DISPATCHING_TOOLS phase executes every Action of
the turn and records the Observations in issuance order, one Step per Action,
regardless of completion order (spec sections 4.3 and 5). -/
def dispatchTurn (reg : List ToolDef) (as : List Action) : List Step :=
  as.map (fun a => Step.mk a (execAction reg a))

/-- Modelled from the spec: the Agent Loop drives model-invocation,
tool-dispatch and observation-recording cycles until a final answer, the
configured maximum iteration count (the fuel argument), or a protocol error
(spec section 4.3). -/
def agentLoop (oracle : List Step → ModelOut) (reg : List ToolDef) :
    Nat → List Step → AgentRun
  | 0, steps => AgentRun.mk steps (Outcome.failed Failure.iterationLimit)
  | n + 1, steps =>
    match oracle steps with
    | ModelOut.finish ans => AgentRun.mk steps (Outcome.done ans)
    | ModelOut.malformed => AgentRun.mk steps (Outcome.failed Failure.protocolError)
    | ModelOut.actions as => agentLoop oracle reg n (steps ++ dispatchTurn reg as)

/-- Modelled from the spec: the blocking invoke variant returns the answer
together with the full step trail (spec section 6). -/
def invoke (oracle : List Step → ModelOut) (reg : List ToolDef)
    (maxIterations : Nat) : AgentRun :=
  agentLoop oracle reg maxIterations []

/-- Modelled from the spec: the Actions issued across a run, in issuance order. -/
def issuedActions (oracle : List Step → ModelOut) (reg : List ToolDef) :
    Nat → List Step → List Action
  | 0, _ => []
  | n + 1, steps =>
    match oracle steps with
    | ModelOut.finish _ => []
    | ModelOut.malformed => []
    | ModelOut.actions as =>
      as ++ issuedActions oracle reg n (steps ++ dispatchTurn reg as)

/-- Modelled from the spec: the Step histories passed to the Language-Model
Client at each model invocation of the run, in order. -/
def modelQueries (oracle : List Step → ModelOut) (reg : List ToolDef) :
    Nat → List Step → List (List Step)
  | 0, _ => []
  | n + 1, steps =>
    match oracle steps with
    | ModelOut.finish _ => [steps]
    | ModelOut.malformed => [steps]
    | ModelOut.actions as =>
      steps :: modelQueries oracle reg n (steps ++ dispatchTurn reg as)

/-- Modelled from the spec: the phases of the Agent Loop state machine visited
during a run, STARTED folded into the first AWAITING_MODEL (spec section 4.3). -/
inductive Phase where
  | awaitingModel : Phase
  | dispatchingTools : Phase
  | phaseDone : Phase
  | phaseFailed : Phase
deriving DecidableEq

/-- Modelled from the spec: the sequence of state-machine phases a run passes
through (spec section 4.3). -/
def phaseTrace (oracle : List Step → ModelOut) (reg : List ToolDef) :
    Nat → List Step → List Phase
  | 0, _ => [Phase.phaseFailed]
  | n + 1, steps =>
    match oracle steps with
    | ModelOut.finish _ => [Phase.awaitingModel, Phase.phaseDone]
    | ModelOut.malformed => [Phase.awaitingModel, Phase.phaseFailed]
    | ModelOut.actions as =>
      Phase.awaitingModel :: Phase.dispatchingTools ::
        phaseTrace oracle reg n (steps ++ dispatchTurn reg as)

/-- Modelled from the spec: one chunk of the streaming run interface, shaped
like the dictionaries astream yields in src/09-BingChatClone.ipynb; a present
key is a some field. -/
structure Chunk where
  actions : Option (List Action)
  steps : Option (List Step)
  output : Option String
deriving DecidableEq

/-- Modelled from the spec: the stream of chunks delivered to a consumer: an
action-issued chunk when a turn's Actions are chosen, an observation-recorded
chunk once the turn's Steps are complete, and a final-answer chunk
(spec sections 6 and 9). -/
def agentStream (oracle : List Step → ModelOut) (reg : List ToolDef) :
    Nat → List Step → List Chunk
  | 0, _ => []
  | n + 1, steps =>
    match oracle steps with
    | ModelOut.finish ans => [Chunk.mk none none (some ans)]
    | ModelOut.malformed => []
    | ModelOut.actions as =>
      Chunk.mk (some as) none none ::
        Chunk.mk none (some (dispatchTurn reg as)) none ::
          agentStream oracle reg n (steps ++ dispatchTurn reg as)

/-- Embedded from src/09-BingChatClone.ipynb: the body of the astream
consumption loop; checks for the key actions, then steps, then output, and
raises ValueError otherwise; returns the lines printed for the chunk. -/
def consumeChunk (c : Chunk) : Except Unit (List String) :=
  match c.actions with
  | some as =>
    Except.ok (as.map (fun a =>
      "Calling Tool: `" ++ a.tool ++ "` with input `" ++ a.toolInput ++ "`"))
  | none =>
    match c.steps with
    | some _ => Except.ok []
    | none =>
      match c.output with
      | some _ => Except.ok []
      | none => Except.error ()

/-- Embedded from src/09-BingChatClone.ipynb: the astream consumption loop run
over a whole stream; the first ValueError aborts it. -/
def consumeStream : List Chunk → Except Unit (List String)
  | [] => Except.ok []
  | c :: cs =>
    match consumeChunk c with
    | Except.error e => Except.error e
    | Except.ok out =>
      match consumeStream cs with
      | Except.error e => Except.error e
      | Except.ok rest => Except.ok (out ++ rest)

/-- Number of the three recognised keys present in a chunk. -/
def chunkKeyCount (c : Chunk) : Nat :=
  (if c.actions.isSome then 1 else 0) + (if c.steps.isSome then 1 else 0) +
    (if c.output.isSome then 1 else 0)

/-- Boolean success test for an Except value. -/
def exceptIsOk : Except Unit (List String) → Bool
  | Except.ok _ => true
  | Except.error _ => false

end AgentSpec

namespace BingTool

/-- Embedded from src/09-BingChatClone.ipynb: the MyBingSearch custom tool; only
its k field matters to the execution paths. -/
structure MyBingSearch where
  k : Nat

/-- Embedded from src/09-BingChatClone.ipynb: loop.run_in_executor applies the
given callable to its arguments on a worker thread; its result is the plain
application. -/
def runInExecutor (f : String → Nat → String) (query : String)
    (numResults : Nat) : String :=
  f query numResults

/-- Embedded from src/09-BingChatClone.ipynb: the synchronous execution path of
MyBingSearch (python name _run). BingSearchAPIWrapper is an external client;
its results method is abstracted as the parameter bingResults, taking the
wrapper's k field, the query, and the num_results argument. -/
def MyBingSearch.run (bingResults : Nat → String → Nat → String)
    (self : MyBingSearch) (query : String) : String :=
  bingResults self.k query self.k

/-- Embedded from src/09-BingChatClone.ipynb: the asynchronous execution path of
MyBingSearch (python name _arun), which awaits run_in_executor on
bing.results with the query and self.k. -/
def MyBingSearch.arun (bingResults : Nat → String → Nat → String)
    (self : MyBingSearch) (query : String) : String :=
  runInExecutor (fun q n => bingResults self.k q n) query self.k

end BingTool

namespace SqlLoad

/-- Embedded from src/08-SQLDB_QA.ipynb: the batched insertion while loop, as
the list of (lower, upper) slice bounds it passes to df[lower:upper].to_sql.
The loop state starts at lower = 0, upper = 1000 and each iteration sets
lower to upper and upper to min (upper + 1000) limit. The first argument of
the recursion is fuel; the characterization theorem below shows the chosen
fuel is enough, so the embedded loop never stops early. -/
def insertGo (limit : Nat) : Nat → Nat → Nat → List (Nat × Nat)
  | 0, _, _ => []
  | fuel + 1, lower, upper =>
    if lower < limit then
      (lower, upper) :: insertGo limit fuel upper (min (upper + 1000) limit)
    else []

/-- Embedded from src/08-SQLDB_QA.ipynb: the slice bounds produced by the whole
batch-insert loop for a dataframe with limit rows. -/
def batchSlices (limit : Nat) : List (Nat × Nat) :=
  insertGo limit limit 0 1000

/-- Rows written by df[lower:upper].to_sql for a dataframe with n rows: pandas
slicing clamps both bounds to n. -/
def sliceRows (n : Nat) (p : Nat × Nat) : List Nat :=
  List.range' p.1 (min p.2 n - p.1)

/-- All row indices inserted by the batch-insert loop, in insertion order. -/
def insertedRows (n : Nat) : List Nat :=
  (batchSlices n).flatMap (sliceRows n)

/-- Embedded from src/08-SQLDB_QA.ipynb: the body of the for loop over
column_types.items() that appends one column declaration per recognised
dtype to the growing CREATE TABLE string, and appends nothing otherwise. -/
def addColumn (acc : String) (name : String) (dtype : String) : String :=
  if dtype = "object" then acc ++ (name ++ " VARCHAR(MAX), ")
  else if dtype = "int64" then acc ++ (name ++ " INT, ")
  else if dtype = "float64" then acc ++ (name ++ " FLOAT, ")
  else if dtype = "bool" then acc ++ (name ++ " BIT, ")
  else if dtype = "datetime64[ns]" then acc ++ (name ++ " DATETIME, ")
  else acc

/-- Embedded from src/08-SQLDB_QA.ipynb: python string slicing s[:-2], which
drops the final two characters. -/
def pyDropLast2 (s : String) : String :=
  String.mk (s.data.take (s.data.length - 2))

/-- Embedded from src/08-SQLDB_QA.ipynb: the full create_table_sql generation,
folding the column loop over the header, slicing off the trailing
comma-space, and closing the parenthesis. -/
def createTableSql (tableName : String)
    (columnTypes : List (String × String)) : String :=
  pyDropLast2 (columnTypes.foldl (fun acc p => addColumn acc p.1 p.2)
    ("CREATE TABLE " ++ tableName ++ " (")) ++ ")"

/-- Column declaration the claim predicts for one dataframe column: its name
followed by the SQL type its dtype maps to, or none for an unrecognised
dtype (which the generation silently omits). -/
def sqlColumnDecl (p : String × String) : Option String :=
  if p.2 = "object" then some (p.1 ++ " VARCHAR(MAX)")
  else if p.2 = "int64" then some (p.1 ++ " INT")
  else if p.2 = "float64" then some (p.1 ++ " FLOAT")
  else if p.2 = "bool" then some (p.1 ++ " BIT")
  else if p.2 = "datetime64[ns]" then some (p.1 ++ " DATETIME")
  else none

/-- Column declarations predicted for a whole dtype list, in dataframe column
order, exactly one per recognised column. -/
def columnDecls (columnTypes : List (String × String)) : List String :=
  columnTypes.filterMap sqlColumnDecl

/-- Comma-space separated concatenation of declarations. -/
def joinComma : List String → String
  | [] => ""
  | [x] => x
  | x :: y :: rest => x ++ ", " ++ joinComma (y :: rest)

/-- Concatenation of a list of strings. -/
def joinAll : List String → String
  | [] => ""
  | x :: rest => x ++ joinAll rest

end SqlLoad

namespace AgentSpec

/-- Concrete fixtures used by the witness theorems. -/
def searchAction : Action := Action.mk "Searcher" "query"

/-- Tool fixture that always succeeds, echoing its input. -/
def okTool : ToolDef := ToolDef.mk "Searcher" (fun q => Except.ok q)

/-- Tool fixture that always raises. -/
def failTool : ToolDef := ToolDef.mk "Searcher" (fun _ => Except.error "boom")

/-- Oracle fixture: one search turn, then a final answer. -/
def demoOracle : List Step → ModelOut := fun steps =>
  if steps.isEmpty then ModelOut.actions [searchAction]
  else ModelOut.finish "final answer"

/-- Oracle fixture that never finishes. -/
def loopingOracle : List Step → ModelOut := fun _ => ModelOut.actions []

/-- Step fixture produced by dispatching searchAction against okTool. -/
def stepOne : Step := Step.mk searchAction "query"

theorem agentLoop_steps_eq (oracle : List Step → ModelOut) (reg : List ToolDef)
    (n : Nat) : ∀ s0 : List Step,
    (agentLoop oracle reg n s0).steps
      = s0 ++ (issuedActions oracle reg n s0).map
          (fun a => Step.mk a (execAction reg a)) := by
  induction n with
  | zero => intro s0; simp [agentLoop, issuedActions]
  | succ n ih =>
    intro s0
    cases h : oracle s0 with
    | finish ans => simp [agentLoop, issuedActions, h]
    | malformed => simp [agentLoop, issuedActions, h]
    | actions as => simp [agentLoop, issuedActions, h, ih, dispatchTurn]

theorem phaseTrace_succ_head (oracle : List Step → ModelOut) (reg : List ToolDef)
    (n : Nat) (s : List Step) :
    (phaseTrace oracle reg (n + 1) s).head? = some Phase.awaitingModel := by
  cases h : oracle s <;> simp [phaseTrace, h]

theorem action_mem_of_mem_dispatchTurn {reg : List ToolDef} {st : Step}
    {as : List Action} (hm : st ∈ dispatchTurn reg as) : st.action ∈ as := by
  simp only [dispatchTurn, List.mem_map] at hm
  obtain ⟨a, ha, hst⟩ := hm
  subst hst
  exact ha

theorem modelQueries_getElem_zero (oracle : List Step → ModelOut)
    (reg : List ToolDef) (n : Nat) (s : List Step) (h : List Step)
    (hh : (modelQueries oracle reg n s)[0]? = some h) : h = s := by
  cases n with
  | zero => simp [modelQueries] at hh
  | succ n =>
    cases ho : oracle s <;> simp [modelQueries, ho] at hh <;> exact hh.symm

/-- C1: for every AgentRun that finalizes with a success outcome, the Step
sequence equals the prior steps followed by exactly one (Action, Observation)
pair per issued Action, in issuance order; since the final steps extend the
initial ones by pure appending, Steps are never reordered or deleted. -/
theorem agentRun_success_steps_issuance_order (oracle : List Step → ModelOut)
    (reg : List ToolDef) (n : Nat) (s0 : List Step) (ans : String)
    (hdone : (agentLoop oracle reg n s0).outcome = Outcome.done ans) :
    (agentLoop oracle reg n s0).steps
      = s0 ++ (issuedActions oracle reg n s0).map
          (fun a => Step.mk a (execAction reg a)) :=
  agentLoop_steps_eq oracle reg n s0

/-- Witness for C1: a concrete two-iteration run that finalizes successfully. -/
theorem agentRun_success_steps_issuance_order_witness :
    (agentLoop demoOracle [okTool] 2 []).outcome = Outcome.done "final answer" ∧
    (agentLoop demoOracle [okTool] 2 []).steps
      = [] ++ (issuedActions demoOracle [okTool] 2 []).map
          (fun a => Step.mk a (execAction [okTool] a)) :=
  ⟨by decide,
   agentRun_success_steps_issuance_order demoOracle [okTool] 2 [] "final answer"
     (by decide)⟩

/-- C2: an oracle that keeps returning Actions makes the run terminate in the
FAILED state with the iteration-limit error once the configured maximum
iteration count is exhausted, and that error is distinguishable from a
protocol error; the loop is a total function, so it never runs forever. -/
theorem iteration_cap_failure_distinguishable (oracle : List Step → ModelOut)
    (reg : List ToolDef) (n : Nat) (s0 : List Step)
    (h : ∀ steps, ∃ as, oracle steps = ModelOut.actions as) :
    (agentLoop oracle reg n s0).outcome = Outcome.failed Failure.iterationLimit ∧
      Failure.iterationLimit ≠ Failure.protocolError := by
  refine ⟨?_, by decide⟩
  induction n generalizing s0 with
  | zero => rfl
  | succ n ih =>
    obtain ⟨as, has⟩ := h s0
    simp only [agentLoop, has]
    exact ih (s0 ++ dispatchTurn reg as)

/-- Witness for C2: a concrete oracle that never finishes exhausts a budget of
three iterations. -/
theorem iteration_cap_failure_distinguishable_witness :
    (agentLoop loopingOracle [] 3 []).outcome
        = Outcome.failed Failure.iterationLimit ∧
      Failure.iterationLimit ≠ Failure.protocolError :=
  iteration_cap_failure_distinguishable loopingOracle [] 3 []
    (fun _ => ⟨[], rfl⟩)

/-- C3: a Tool that raises during a turn contributes a recoverable error
Observation to the dispatched Steps, the turn still transitions from
DISPATCHING_TOOLS back to a model invocation, and the next phase visited is
AWAITING_MODEL, so a tool-level error never unwinds the run. -/
theorem tool_error_recoverable_observation (oracle : List Step → ModelOut)
    (reg : List ToolDef) (t : ToolDef) (a : Action) (msg : String) (n : Nat)
    (s0 : List Step) (as : List Action)
    (hres : resolveTool reg a.tool = some t)
    (herr : t.run a.toolInput = Except.error msg)
    (hmem : a ∈ as)
    (hturn : oracle s0 = ModelOut.actions as) :
    Step.mk a ("Error: " ++ msg) ∈ dispatchTurn reg as ∧
    phaseTrace oracle reg (n + 2) s0
      = Phase.awaitingModel :: Phase.dispatchingTools ::
          phaseTrace oracle reg (n + 1) (s0 ++ dispatchTurn reg as) ∧
    (phaseTrace oracle reg (n + 1) (s0 ++ dispatchTurn reg as)).head?
      = some Phase.awaitingModel := by
  refine ⟨?_, ?_, phaseTrace_succ_head oracle reg n (s0 ++ dispatchTurn reg as)⟩
  · have hx : execAction reg a = "Error: " ++ msg := by
      simp [execAction, hres, herr]
    simp only [dispatchTurn, List.mem_map]
    exact ⟨a, hmem, by rw [hx]⟩
  · simp [phaseTrace, hturn]

/-- Witness for C3: a concrete registry whose only tool raises. -/
theorem tool_error_recoverable_observation_witness :
    Step.mk searchAction ("Error: " ++ "boom")
        ∈ dispatchTurn [failTool] [searchAction] ∧
    phaseTrace demoOracle [failTool] (0 + 2) []
      = Phase.awaitingModel :: Phase.dispatchingTools ::
          phaseTrace demoOracle [failTool] (0 + 1)
            ([] ++ dispatchTurn [failTool] [searchAction]) ∧
    (phaseTrace demoOracle [failTool] (0 + 1)
        ([] ++ dispatchTurn [failTool] [searchAction])).head?
      = some Phase.awaitingModel :=
  tool_error_recoverable_observation demoOracle [failTool] failTool searchAction
    "boom" 0 [] [searchAction] rfl rfl (by decide) rfl

/-- C8: the blocking invoke interface always returns an AgentRun whose outcome
is either a final answer or a distinguishable terminal error, and whose Step
trail contains exactly the pairs for every Action issued before termination,
so accumulated Steps are never dropped on terminal error and the run never
escapes as an uncaught crash (the loop is a total function). -/
theorem invoke_answer_or_error_with_trail (oracle : List Step → ModelOut)
    (reg : List ToolDef) (maxIterations : Nat) :
    ((∃ a, (invoke oracle reg maxIterations).outcome = Outcome.done a) ∨
      (∃ f, (invoke oracle reg maxIterations).outcome = Outcome.failed f)) ∧
    (invoke oracle reg maxIterations).steps
      = (issuedActions oracle reg maxIterations []).map
          (fun a => Step.mk a (execAction reg a)) := by
  constructor
  · cases hco : (invoke oracle reg maxIterations).outcome with
    | done a => exact Or.inl ⟨a, rfl⟩
    | failed f => exact Or.inr ⟨f, rfl⟩
  · simpa [invoke] using agentLoop_steps_eq oracle reg maxIterations []


/-- C4: whenever the model is invoked again after a turn, the history it is
given extends the previous invocation's history by exactly one Observation
for each of the N Actions returned in that turn, so the dispatch phase
completes before the loop re-enters AWAITING_MODEL. -/
theorem turn_observations_before_next_model_call (oracle : List Step → ModelOut)
    (reg : List ToolDef) (n : Nat) : ∀ (s0 : List Step) (k : Nat)
    (h h' : List Step),
    (modelQueries oracle reg n s0)[k]? = some h →
    (modelQueries oracle reg n s0)[k + 1]? = some h' →
    ∃ as, oracle h = ModelOut.actions as ∧ h' = h ++ dispatchTurn reg as ∧
      (dispatchTurn reg as).length = as.length := by
  induction n with
  | zero => intro s0 k h h' hk _; simp [modelQueries] at hk
  | succ n ih =>
    intro s0 k h h' hk hk1
    cases ho : oracle s0 with
    | finish ans => simp [modelQueries, ho] at hk1
    | malformed => simp [modelQueries, ho] at hk1
    | actions as =>
      simp only [modelQueries, ho, List.getElem?_cons_succ] at hk hk1
      cases k with
      | zero =>
        simp only [List.getElem?_cons_zero, Option.some.injEq] at hk
        have hh' := modelQueries_getElem_zero oracle reg n
          (s0 ++ dispatchTurn reg as) h' hk1
        refine ⟨as, ?_, ?_, by simp [dispatchTurn]⟩
        · rw [← hk]; exact ho
        · rw [hh', hk]
      | succ k =>
        simp only [List.getElem?_cons_succ] at hk hk1
        exact ih (s0 ++ dispatchTurn reg as) k h h' hk hk1

/-- Witness for C4: in a concrete run, the second model invocation sees the
first turn's Action paired with its Observation. -/
theorem turn_observations_before_next_model_call_witness :
    ∃ as, demoOracle [] = ModelOut.actions as ∧
      [stepOne] = [] ++ dispatchTurn [okTool] as ∧
      (dispatchTurn [okTool] as).length = as.length :=
  turn_observations_before_next_model_call demoOracle [okTool] 2 [] 0
    [] [stepOne] (by decide) (by decide)

/-- C5: in any delivered stream, every chunk that records an Observation for an
Action is strictly preceded by a chunk that issued that same Action, so every
streaming consumer observes action-issued before observation-recorded. -/
theorem action_issued_before_observation_recorded (oracle : List Step → ModelOut)
    (reg : List ToolDef) (n : Nat) : ∀ (s0 : List Step) (j : Nat) (c : Chunk)
    (ss : List Step) (st : Step),
    (agentStream oracle reg n s0)[j]? = some c →
    c.steps = some ss → st ∈ ss →
    ∃ i c' as, i < j ∧ (agentStream oracle reg n s0)[i]? = some c' ∧
      c'.actions = some as ∧ st.action ∈ as := by
  induction n with
  | zero => intro s0 j c ss st hj _ _; simp [agentStream] at hj
  | succ n ih =>
    intro s0 j c ss st hj hs hst
    cases ho : oracle s0 with
    | finish ans =>
      cases j with
      | zero =>
        simp only [agentStream, ho, List.getElem?_cons_zero,
          Option.some.injEq] at hj
        rw [← hj] at hs
        simp at hs
      | succ j => simp [agentStream, ho] at hj
    | malformed => simp [agentStream, ho] at hj
    | actions as =>
      have hstream : agentStream oracle reg (n + 1) s0
          = Chunk.mk (some as) none none ::
              Chunk.mk none (some (dispatchTurn reg as)) none ::
                agentStream oracle reg n (s0 ++ dispatchTurn reg as) := by
        simp [agentStream, ho]
      rw [hstream] at hj ⊢
      match j with
      | 0 =>
        simp only [List.getElem?_cons_zero, Option.some.injEq] at hj
        rw [← hj] at hs
        simp at hs
      | 1 =>
        simp only [List.getElem?_cons_succ, List.getElem?_cons_zero,
          Option.some.injEq] at hj
        rw [← hj] at hs
        simp only [Option.some.injEq] at hs
        refine ⟨0, Chunk.mk (some as) none none, as, by omega, rfl, rfl, ?_⟩
        rw [← hs] at hst
        exact action_mem_of_mem_dispatchTurn hst
      | (j + 2) =>
        simp only [List.getElem?_cons_succ] at hj
        obtain ⟨i, c', as', hi, hgi, hca, hma⟩ :=
          ih (s0 ++ dispatchTurn reg as) j c ss st hj hs hst
        exact ⟨i + 2, c', as', by omega,
          by simpa [List.getElem?_cons_succ] using hgi, hca, hma⟩

/-- Witness for C5: in a concrete stream, the observation-recorded chunk at
position one is preceded by an action-issued chunk for the same Action. -/
theorem action_issued_before_observation_recorded_witness :
    ∃ i c' as, i < 1 ∧ (agentStream demoOracle [okTool] 3 [])[i]? = some c' ∧
      c'.actions = some as ∧ stepOne.action ∈ as :=
  action_issued_before_observation_recorded demoOracle [okTool] 3 [] 1
    (Chunk.mk none (some [stepOne]) none) [stepOne] stepOne
    (by decide) (by decide) (by decide)

/-- C6: every chunk the streaming interface delivers carries exactly one of the
three keys actions, steps, output, and consuming any delivered stream with
the notebook's consumption loop never reaches the ValueError branch. -/
theorem stream_chunks_three_kinds_consumer_total (oracle : List Step → ModelOut)
    (reg : List ToolDef) (n : Nat) : ∀ s0 : List Step,
    ((agentStream oracle reg n s0).all (fun c => chunkKeyCount c == 1)) = true ∧
    exceptIsOk (consumeStream (agentStream oracle reg n s0)) = true := by
  induction n with
  | zero => intro s0; simp [agentStream, consumeStream, exceptIsOk]
  | succ n ih =>
    intro s0
    cases ho : oracle s0 with
    | finish ans =>
      simp [agentStream, ho, consumeStream, consumeChunk, chunkKeyCount,
        exceptIsOk]
    | malformed => simp [agentStream, ho, consumeStream, exceptIsOk]
    | actions as =>
      obtain ⟨h1, h2⟩ := ih (s0 ++ dispatchTurn reg as)
      constructor
      · simp only [agentStream, ho, List.all_cons, chunkKeyCount]
        simp only [chunkKeyCount] at h1
        simp [h1]
      · simp only [agentStream, ho, consumeStream, consumeChunk]
        cases hc : consumeStream
            (agentStream oracle reg n (s0 ++ dispatchTurn reg as)) with
        | error e => rw [hc] at h2; simp [exceptIsOk] at h2
        | ok out => simp [exceptIsOk]

end AgentSpec

namespace BingTool

/-- C7: the synchronous and the asynchronous execution paths of the Bing search
tool compute the same result for every query and every behaviour of the
external results endpoint: both call results with the query and num_results
equal to the tool's k, the async path routing the identical call through the
executor. -/
theorem bing_run_arun_agree (bingResults : Nat → String → Nat → String)
    (self : MyBingSearch) (query : String) :
    MyBingSearch.arun bingResults self query
      = MyBingSearch.run bingResults self query := rfl

end BingTool

namespace SqlLoad

theorem insertGo_eq_nil_of_le (limit fuel lower upper : Nat)
    (h : limit ≤ lower) : insertGo limit fuel lower upper = [] := by
  cases fuel with
  | zero => rfl
  | succ fuel => simp [insertGo, Nat.not_lt.mpr h]

theorem insertGo_flat_rows (limit : Nat) : ∀ (fuel lower upper : Nat),
    (limit ≤ lower ∨ lower < upper) → limit ≤ fuel + lower →
    (insertGo limit fuel lower upper).flatMap (sliceRows limit)
      = List.range' lower (limit - lower) := by
  intro fuel
  induction fuel with
  | zero =>
    intro lower upper _ hf
    have h0 : limit - lower = 0 := by omega
    simp [insertGo, h0]
  | succ fuel ih =>
    intro lower upper hd hf
    by_cases hlt : lower < limit
    · have hlu : lower < upper := hd.resolve_left (by omega)
      have hcons : insertGo limit (fuel + 1) lower upper
          = (lower, upper) ::
              insertGo limit fuel upper (min (upper + 1000) limit) := by
        simp [insertGo, hlt]
      rw [hcons, List.flatMap_cons]
      have hrest := ih upper (min (upper + 1000) limit)
        (by rcases Nat.lt_or_ge upper limit with h | h
            · exact Or.inr (by omega)
            · exact Or.inl h)
        (by omega)
      rw [hrest]
      by_cases hup : upper ≤ limit
      · have h1 : min upper limit = upper := Nat.min_eq_left hup
        simp only [sliceRows, h1]
        have happ := List.range'_append lower (upper - lower) (limit - upper) 1
        simp only [Nat.one_mul, List.range'_one] at happ
        rw [show lower + (upper - lower) = upper by omega] at happ
        rw [show limit - upper + (upper - lower) = limit - lower by omega] at happ
        exact happ
      · have h1 : min upper limit = limit := Nat.min_eq_right (by omega)
        have h3 : limit - upper = 0 := by omega
        simp [sliceRows, h1, h3]
    · have hcons : insertGo limit (fuel + 1) lower upper = [] := by
        simp [insertGo, hlt]
      have h0 : limit - lower = 0 := by omega
      simp [hcons, h0]

theorem insertGo_getLast_limit (limit : Nat) : ∀ (fuel lower upper : Nat),
    lower < limit → lower < upper → upper ≤ limit → limit ≤ fuel + lower →
    ∃ p, (insertGo limit fuel lower upper).getLast? = some p ∧
      p.2 = limit := by
  intro fuel
  induction fuel with
  | zero => intro lower upper h1 _ _ h4; omega
  | succ fuel ih =>
    intro lower upper h1 h2 h3 h4
    have hcons : insertGo limit (fuel + 1) lower upper
        = (lower, upper) ::
            insertGo limit fuel upper (min (upper + 1000) limit) := by
      simp [insertGo, h1]
    by_cases hup : upper < limit
    · obtain ⟨p, hp, hp2⟩ := ih upper (min (upper + 1000) limit)
        hup (by omega) (by omega) (by omega)
      rw [hcons]
      cases hr : insertGo limit fuel upper (min (upper + 1000) limit) with
      | nil => rw [hr] at hp; simp at hp
      | cons r rs =>
        rw [hr] at hp
        exact ⟨p, by rw [List.getLast?_cons_cons]; exact hp, hp2⟩
    · have heq : upper = limit := by omega
      have hnil : insertGo limit fuel upper (min (upper + 1000) limit) = [] :=
        insertGo_eq_nil_of_le limit fuel upper _ (by omega)
      rw [hcons, hnil]
      exact ⟨(lower, upper), rfl, heq⟩

/-- C9 (amended): for every dataframe with n rows the batch-insert loop
terminates having inserted exactly the rows 0, 1, ..., n - 1 once each, in
order (pandas slicing clamps each slice's upper bound to n); it performs no
insert at all when n = 0; and the final slice's upper bound equals n whenever
n is at least 1000 (for 0 < n < 1000 the single slice is written with upper
bound 1000, which slicing clamps back to n). -/
theorem batch_insert_exact_rows (n : Nat) :
    insertedRows n = List.range n ∧
    batchSlices 0 = [] ∧
    (1000 ≤ n → ∃ p, (batchSlices n).getLast? = some p ∧ p.2 = n) := by
  refine ⟨?_, rfl, ?_⟩
  · unfold insertedRows batchSlices
    rcases Nat.eq_zero_or_pos n with h0 | hpos
    · subst h0; rfl
    · rw [insertGo_flat_rows n n 0 1000 (Or.inr (by omega)) (by omega)]
      simp [List.range_eq_range']
  · intro hge
    exact insertGo_getLast_limit n n 0 1000 (by omega) (by omega) hge (by omega)

/-- Witness for C9: concrete evaluation at n = 1200. -/
theorem batch_insert_exact_rows_witness :
    (1000 ≤ 1200) ∧
      ∃ p, (batchSlices 1200).getLast? = some p ∧ p.2 = 1200 :=
  ⟨by decide, (batch_insert_exact_rows 1200).2.2 (by decide)⟩

/-- C9 counterexample: for a dataframe of 500 rows the loop performs its single
insert with the slice written as rows 0 to 1000, so the final slice's upper
bound is 1000, not 500; the claim's clause that the final slice ends exactly
at row n fails for every 0 < n < 1000. -/
theorem batch_insert_final_slice_counterexample :
    ∃ p, (batchSlices 500).getLast? = some p ∧ p.2 ≠ 500 :=
  ⟨(0, 1000), by decide, by decide⟩

end SqlLoad

namespace SqlLoad

theorem addColumn_eq (acc : String) (p : String × String) :
    addColumn acc p.1 p.2
      = match sqlColumnDecl p with
        | some d => acc ++ (d ++ ", ")
        | none => acc := by
  obtain ⟨name, dtype⟩ := p
  unfold addColumn sqlColumnDecl
  split_ifs <;> simp [String.append_assoc]

theorem foldl_addColumn (columnTypes : List (String × String)) :
    ∀ acc : String,
    columnTypes.foldl (fun acc p => addColumn acc p.1 p.2) acc
      = acc ++ joinAll ((columnDecls columnTypes).map (fun d => d ++ ", ")) := by
  induction columnTypes with
  | nil => intro acc; simp [columnDecls, joinAll, String.append_empty]
  | cons p rest ih =>
    intro acc
    rw [List.foldl_cons, addColumn_eq]
    cases hd : sqlColumnDecl p with
    | none =>
      simp only [columnDecls, List.filterMap_cons, hd]
      exact ih acc
    | some d =>
      simp only [columnDecls, List.filterMap_cons, hd, List.map_cons, joinAll]
      rw [ih (acc ++ (d ++ ", "))]
      simp only [columnDecls]
      rw [String.append_assoc]

theorem pyDropLast2_append (s : String) : pyDropLast2 (s ++ ", ") = s := by
  unfold pyDropLast2
  have hd : (s ++ ", ").data = s.data ++ [',', ' '] := by
    rw [String.data_append]
  rw [hd]
  have hl : (s.data ++ [',', ' ']).length - 2 = s.data.length := by simp
  rw [hl, List.take_left]

theorem joinAll_map_comma : ∀ ds : List String, ds ≠ [] →
    joinAll (ds.map (fun d => d ++ ", ")) = joinComma ds ++ ", "
  | [], h => absurd rfl h
  | [x], _ => by simp [joinAll, joinComma, String.append_empty]
  | x :: y :: rs, _ => by
    have ihh := joinAll_map_comma (y :: rs) (by simp)
    simp only [List.map_cons, joinAll, joinComma] at ihh ⊢
    rw [ihh]
    simp [String.append_assoc]

/-- C10: the generated CREATE TABLE statement is the header followed by, in
dataframe column order, exactly one column declaration for each column whose
dtype is one of object, int64, float64, bool, datetime64[ns] (mapped
respectively to VARCHAR(MAX), INT, FLOAT, BIT, DATETIME by sqlColumnDecl),
and a column of any dtype outside those five contributes no declaration, so
it is silently omitted from the generated schema. -/
theorem create_table_sql_columns_in_order (tableName : String)
    (columnTypes : List (String × String))
    (h : columnDecls columnTypes ≠ []) :
    createTableSql tableName columnTypes
      = ("CREATE TABLE " ++ tableName ++ " (")
          ++ (joinComma (columnDecls columnTypes) ++ ")") ∧
    ∀ p : String × String,
      sqlColumnDecl p = none ↔
        p.2 ∉ ["object", "int64", "float64", "bool", "datetime64[ns]"] := by
  constructor
  · unfold createTableSql
    rw [foldl_addColumn, joinAll_map_comma _ h, ← String.append_assoc,
      pyDropLast2_append, String.append_assoc]
  · intro p
    obtain ⟨name, dtype⟩ := p
    unfold sqlColumnDecl
    split_ifs <;> simp_all

/-- Fixture: the dtype list of a small dataframe exercising all five recognised
dtypes plus an unrecognised one. -/
def demoColumnTypes : List (String × String) :=
  [("date", "object"), ("deathIncrease", "int64"), ("death", "float64"),
   ("flag", "bool"), ("ts", "datetime64[ns]"), ("cat", "category")]

/-- Witness for C10: concrete evaluation on demoColumnTypes. -/
theorem create_table_sql_columns_in_order_witness :
    columnDecls demoColumnTypes ≠ [] ∧
    (createTableSql "covidtracking" demoColumnTypes
      = ("CREATE TABLE " ++ "covidtracking" ++ " (")
          ++ (joinComma (columnDecls demoColumnTypes) ++ ")") ∧
     ∀ p : String × String,
       sqlColumnDecl p = none ↔
         p.2 ∉ ["object", "int64", "float64", "bool", "datetime64[ns]"]) :=
  ⟨by decide,
   create_table_sql_columns_in_order "covidtracking" demoColumnTypes
     (by decide)⟩

end SqlLoad
